import Mathlib

/-!
# Verification of the `InvoicePayment` escrow contract

Shallow embedding of `src/contracts/InvoicePayment.sol` (Solidity 0.8.28).

Modelling conventions:
* Addresses are `Nat`; `uint256` values are `Nat`.  Solidity 0.8 checked
  arithmetic reverts on underflow; the one place the contract subtracts
  (`invoice.amount - fee`) is therefore guarded explicitly.
* A reverting call (failed `require`, failed `transfer`) returns
  `Except.error e` and, per EVM semantics, leaves the contract state and all
  balances exactly as they were: the model returns no state on error, and the
  caller keeps the pre-call state.
* `address(this).balance` is the `balance` field; `platformWallet.transfer`,
  `emitter.transfer`, `client.transfer` deduct from it and are recorded in the
  list of outgoing `Transfer`s returned by a successful call (EVM `transfer`
  reverts when the contract balance is insufficient).
* `msg.value` of the payable `payInvoice` is the `msgValue` argument; on
  success it is added to the contract balance.  `address(msg.sender).balance`
  at the time of `payInvoice`'s third `require` is the `senderBalance`
  argument.
* The `mapping(uint256 => Invoice)` is a total function `Nat → Invoice`
  defaulting to the all-zero struct, as in the EVM.
* Revert reasons are mapped to the error taxonomy: role `require`s (the
  `onlyClient` / `onlyEmitter` / `onlyArbitrator` modifiers and
  OpenZeppelin's `onlyOwner`) to `AuthorizationError`; status `require`s to
  `StateConflict`; `"Incorrect payment amount"` and the admin range checks to
  `ValidationError`; `"Insufficient balance to pay Invoice"` to
  `InsufficientBalanceError`; `"Timeout not reached"` to
  `TimeoutNotReachedError`; a reverting `transfer` to `TransferError`; a
  checked-subtraction underflow panic to `ArithmeticError`.
-/

namespace InvoicePayment

/-- `enum Status { Pending, Paid, Disputed, Released, Validated }` -/
inductive Status where
  | Pending
  | Paid
  | Disputed
  | Released
  | Validated
deriving DecidableEq, Repr

/-- `struct Invoice` of the contract. -/
structure Invoice where
  invoiceId : Nat
  client : Nat
  emitter : Nat
  amount : Nat
  paymentTimeStamp : Nat
  status : Status
deriving DecidableEq, Repr

/-- The all-zero struct an EVM mapping yields for an absent key
(`Status.Pending` is enum value 0). -/
def Invoice.zero : Invoice :=
  { invoiceId := 0, client := 0, emitter := 0, amount := 0,
    paymentTimeStamp := 0, status := Status.Pending }

/-- The contract's storage, plus its ether balance and the `Ownable` owner. -/
structure ContractState where
  invoices : Nat → Invoice
  invoiceCount : Nat
  arbitrator : Nat
  platformWallet : Nat
  platformFeePercent : Nat
  paymentTimeout : Nat
  owner : Nat
  balance : Nat

/-- Error taxonomy for reverts (see the module comment for the mapping from
revert reasons). -/
inductive Err where
  | AuthorizationError
  | StateConflict
  | ValidationError
  | InsufficientBalanceError
  | TimeoutNotReachedError
  | TransferError
  | ArithmeticError
deriving DecidableEq, Repr

/-- One outgoing `transfer` performed by a call. -/
structure Transfer where
  recipient : Nat
  amount : Nat
deriving DecidableEq, Repr

/-- State immediately after the constructor
`constructor(address _arbitrator, address payable _platformWallet)`:
`platformFeePercent = 2`, `paymentTimeout = 7 days`, empty invoice mapping. -/
def initialState (deployer arb wallet : Nat) : ContractState :=
  { invoices := fun _ => Invoice.zero
    invoiceCount := 0
    arbitrator := arb
    platformWallet := wallet
    platformFeePercent := 2
    paymentTimeout := 7 * 86400
    owner := deployer
    balance := 0 }

/-- `function setArbitrator(address _newArbitrator) public onlyOwner` -/
def setArbitrator (s : ContractState) (caller newArbitrator : Nat) :
    Except Err (ContractState × List Transfer) :=
  if caller ≠ s.owner then .error .AuthorizationError
  else .ok ({ s with arbitrator := newArbitrator }, [])

/-- `function setPlatformFeePercent(uint256 _newFee) public onlyOwner`
with `require(_newFee <= 10, ...)`. -/
def setPlatformFeePercent (s : ContractState) (caller newFee : Nat) :
    Except Err (ContractState × List Transfer) :=
  if caller ≠ s.owner then .error .AuthorizationError
  else if ¬ newFee ≤ 10 then .error .ValidationError
  else .ok ({ s with platformFeePercent := newFee }, [])

/-- `function setPaymentTimeout(uint256 _newTimeout) public onlyOwner`
with `require(_newTimeout >= 1 days, ...)`; `1 days = 86400` seconds. -/
def setPaymentTimeout (s : ContractState) (caller newTimeout : Nat) :
    Except Err (ContractState × List Transfer) :=
  if caller ≠ s.owner then .error .AuthorizationError
  else if ¬ 86400 ≤ newTimeout then .error .ValidationError
  else .ok ({ s with paymentTimeout := newTimeout }, [])

/-- `function createInvoice(address payable _client, uint256 _amount) public`.
No `require` at all: any caller, any amount (zero included).  The new invoice
gets id `invoiceCount + 1`, emitter `msg.sender`, status `Pending`. -/
def createInvoice (s : ContractState) (caller client amount : Nat) :
    Except Err (ContractState × List Transfer) :=
  let newId := s.invoiceCount + 1
  .ok ({ s with
          invoiceCount := newId
          invoices := Function.update s.invoices newId
            { invoiceId := newId, client := client, emitter := caller,
              amount := amount, paymentTimeStamp := 0,
              status := Status.Pending } }, [])

/-- `function payInvoice(uint256 _invoiceId) public payable onlyClient(_invoiceId)`.
Checks, in source order: the `onlyClient` modifier, `status == Pending`,
`msg.value == amount`, `msg.value <= address(msg.sender).balance`.  On
success it sets `paymentTimeStamp = block.timestamp`, `status = Paid`, and
the contract balance grows by `msg.value` (payable call). -/
def payInvoice (s : ContractState) (caller invoiceId msgValue senderBalance now : Nat) :
    Except Err (ContractState × List Transfer) :=
  let invoice := s.invoices invoiceId
  if caller ≠ invoice.client then .error .AuthorizationError
  else if invoice.status ≠ Status.Pending then .error .StateConflict
  else if msgValue ≠ invoice.amount then .error .ValidationError
  else if ¬ msgValue ≤ senderBalance then .error .InsufficientBalanceError
  else .ok ({ s with
                invoices := Function.update s.invoices invoiceId
                  { invoice with paymentTimeStamp := now, status := Status.Paid }
                balance := s.balance + msgValue }, [])

/-- `function confirmPayment(uint256 _invoiceId) public onlyClient(_invoiceId)`.
`fee = (amount * platformFeePercent) / 100` (integer division);
`amountToEmitter = amount - fee` (checked subtraction); then
`platformWallet.transfer(fee)` and `invoice.emitter.transfer(amountToEmitter)`;
final status `Validated`. -/
def confirmPayment (s : ContractState) (caller invoiceId : Nat) :
    Except Err (ContractState × List Transfer) :=
  let invoice := s.invoices invoiceId
  if caller ≠ invoice.client then .error .AuthorizationError
  else if invoice.status ≠ Status.Paid then .error .StateConflict
  else
    let fee := invoice.amount * s.platformFeePercent / 100
    if ¬ fee ≤ invoice.amount then .error .ArithmeticError
    else
      let amountToEmitter := invoice.amount - fee
      if ¬ fee ≤ s.balance then .error .TransferError
      else if ¬ amountToEmitter ≤ s.balance - fee then .error .TransferError
      else .ok ({ s with
                    invoices := Function.update s.invoices invoiceId
                      { invoice with status := Status.Validated }
                    balance := s.balance - fee - amountToEmitter },
                [⟨s.platformWallet, fee⟩, ⟨invoice.emitter, amountToEmitter⟩])

/-- `function autoReleasePayment(uint256 _invoiceId) public`: no role
modifier — the `caller` (`msg.sender`) is never read, so any caller may
invoke it.  Requires `status == Paid` and
`block.timestamp >= paymentTimeStamp + paymentTimeout`, then performs the
same fee split and transfers as `confirmPayment`; final status `Released`. -/
def autoReleasePayment (s : ContractState) (_caller invoiceId now : Nat) :
    Except Err (ContractState × List Transfer) :=
  let invoice := s.invoices invoiceId
  if invoice.status ≠ Status.Paid then .error .StateConflict
  else if ¬ invoice.paymentTimeStamp + s.paymentTimeout ≤ now then
    .error .TimeoutNotReachedError
  else
    let fee := invoice.amount * s.platformFeePercent / 100
    if ¬ fee ≤ invoice.amount then .error .ArithmeticError
    else
      let amountToEmitter := invoice.amount - fee
      if ¬ fee ≤ s.balance then .error .TransferError
      else if ¬ amountToEmitter ≤ s.balance - fee then .error .TransferError
      else .ok ({ s with
                    invoices := Function.update s.invoices invoiceId
                      { invoice with status := Status.Released }
                    balance := s.balance - fee - amountToEmitter },
                [⟨s.platformWallet, fee⟩, ⟨invoice.emitter, amountToEmitter⟩])

/-- `function disputeByClient(uint256 _invoiceId) public onlyClient(_invoiceId)`
with `require(status == Paid)`; sets status `Disputed`. -/
def disputeByClient (s : ContractState) (caller invoiceId : Nat) :
    Except Err (ContractState × List Transfer) :=
  let invoice := s.invoices invoiceId
  if caller ≠ invoice.client then .error .AuthorizationError
  else if invoice.status ≠ Status.Paid then .error .StateConflict
  else .ok ({ s with
                invoices := Function.update s.invoices invoiceId
                  { invoice with status := Status.Disputed } }, [])

/-- `function disputeByEmitter(uint256 _invoiceId) public onlyEmitter(_invoiceId)`
with `require(status == Paid)`; sets status `Disputed`. -/
def disputeByEmitter (s : ContractState) (caller invoiceId : Nat) :
    Except Err (ContractState × List Transfer) :=
  let invoice := s.invoices invoiceId
  if caller ≠ invoice.emitter then .error .AuthorizationError
  else if invoice.status ≠ Status.Paid then .error .StateConflict
  else .ok ({ s with
                invoices := Function.update s.invoices invoiceId
                  { invoice with status := Status.Disputed } }, [])

/-- `function resolveDispute(uint256 _invoiceId, bool releaseToEmitter) public onlyArbitrator`
with `require(status == Disputed)`.  If `releaseToEmitter`:
`emitter.transfer(amount)`, status `Released`; else `client.transfer(amount)`,
status `Pending`.  The source does not touch `paymentTimeStamp` in either
branch. -/
def resolveDispute (s : ContractState) (caller invoiceId : Nat)
    (releaseToEmitter : Bool) : Except Err (ContractState × List Transfer) :=
  let invoice := s.invoices invoiceId
  if caller ≠ s.arbitrator then .error .AuthorizationError
  else if invoice.status ≠ Status.Disputed then .error .StateConflict
  else if releaseToEmitter then
    if ¬ invoice.amount ≤ s.balance then .error .TransferError
    else .ok ({ s with
                  invoices := Function.update s.invoices invoiceId
                    { invoice with status := Status.Released }
                  balance := s.balance - invoice.amount },
              [⟨invoice.emitter, invoice.amount⟩])
  else
    if ¬ invoice.amount ≤ s.balance then .error .TransferError
    else .ok ({ s with
                  invoices := Function.update s.invoices invoiceId
                    { invoice with status := Status.Pending }
                  balance := s.balance - invoice.amount },
              [⟨invoice.client, invoice.amount⟩])

/-- One external call to the contract, with all its arguments (`now` is
`block.timestamp` of the enclosing block). -/
inductive Op where
  | setArbitrator (caller newArbitrator : Nat)
  | setPlatformFeePercent (caller newFee : Nat)
  | setPaymentTimeout (caller newTimeout : Nat)
  | createInvoice (caller client amount : Nat)
  | payInvoice (caller invoiceId msgValue senderBalance now : Nat)
  | confirmPayment (caller invoiceId : Nat)
  | autoReleasePayment (caller invoiceId now : Nat)
  | disputeByClient (caller invoiceId : Nat)
  | disputeByEmitter (caller invoiceId : Nat)
  | resolveDispute (caller invoiceId : Nat) (releaseToEmitter : Bool)
deriving DecidableEq, Repr

/-- Dispatch one call against the contract state. -/
def applyOp (s : ContractState) : Op → Except Err (ContractState × List Transfer)
  | .setArbitrator caller a => setArbitrator s caller a
  | .setPlatformFeePercent caller f => setPlatformFeePercent s caller f
  | .setPaymentTimeout caller t => setPaymentTimeout s caller t
  | .createInvoice caller c a => createInvoice s caller c a
  | .payInvoice caller id v b now => payInvoice s caller id v b now
  | .confirmPayment caller id => confirmPayment s caller id
  | .autoReleasePayment caller id now => autoReleasePayment s caller id now
  | .disputeByClient caller id => disputeByClient s caller id
  | .disputeByEmitter caller id => disputeByEmitter s caller id
  | .resolveDispute caller id b => resolveDispute s caller id b

/-- The six settlement operations of the §4.2 transition table (all calls that
mutate an existing invoice). -/
def Op.isSettlement : Op → Bool
  | .payInvoice .. => true
  | .confirmPayment .. => true
  | .autoReleasePayment .. => true
  | .disputeByClient .. => true
  | .disputeByEmitter .. => true
  | .resolveDispute .. => true
  | _ => false

/-- The invoice a settlement operation addresses. -/
def Op.targetId : Op → Nat
  | .payInvoice _ id _ _ _ => id
  | .confirmPayment _ id => id
  | .autoReleasePayment _ id _ => id
  | .disputeByClient _ id => id
  | .disputeByEmitter _ id => id
  | .resolveDispute _ id _ => id
  | _ => 0

/-- The status each settlement operation requires of its target invoice —
the `require(status == ...)` of the §4.2 table (`payInvoice` needs
`Pending`, `resolveDispute` needs `Disputed`, the rest need `Paid`).  Only
meaningful for the six settlement operations; the admin and creation calls
are not status-gated. -/
def Op.requiredStatus : Op → Status
  | .payInvoice .. => Status.Pending
  | .confirmPayment .. => Status.Paid
  | .autoReleasePayment .. => Status.Paid
  | .disputeByClient .. => Status.Paid
  | .disputeByEmitter .. => Status.Paid
  | .resolveDispute .. => Status.Disputed
  | _ => Status.Pending

/-- The edges of the §4.2 transition table. -/
def allowedEdge : Status → Status → Bool
  | .Pending, .Paid => true
  | .Paid, .Validated => true
  | .Paid, .Released => true
  | .Paid, .Disputed => true
  | .Disputed, .Released => true
  | .Disputed, .Pending => true
  | _, _ => false

/-- States reachable from a freshly deployed contract by successful calls. -/
inductive Reachable (deployer arb wallet : Nat) : ContractState → Prop where
  | init : Reachable deployer arb wallet (initialState deployer arb wallet)
  | step {s s' : ContractState} {op : Op} {ts : List Transfer} :
      Reachable deployer arb wallet s → applyOp s op = .ok (s', ts) →
      Reachable deployer arb wallet s'

/-- What one invoice contributes to the funds the escrow owes: its amount
while it is in custody (`Paid` or `Disputed`), nothing otherwise. -/
def contribution (inv : Invoice) : Nat :=
  if inv.status = Status.Paid ∨ inv.status = Status.Disputed then inv.amount else 0

/-- Funds the escrow owes: the total amount over invoices whose status is
`Paid` or `Disputed`. -/
def escrowSum (s : ContractState) : Nat :=
  ∑ i ∈ Finset.Icc 1 s.invoiceCount, contribution (s.invoices i)

/-! ## Characterization lemmas: exactly when each call succeeds, and with
what effect. -/

theorem payInvoice_ok_iff {s : ContractState} {caller id v b now : Nat}
    {r : ContractState × List Transfer} :
    payInvoice s caller id v b now = .ok r ↔
      caller = (s.invoices id).client ∧
      (s.invoices id).status = Status.Pending ∧
      v = (s.invoices id).amount ∧ v ≤ b ∧
      r = ({ s with
              invoices := Function.update s.invoices id
                { s.invoices id with paymentTimeStamp := now, status := Status.Paid }
              balance := s.balance + v }, []) := by
  constructor
  · intro h
    simp only [payInvoice] at h
    split_ifs at h <;> simp_all
  · rintro ⟨h1, h2, h3, h4, rfl⟩
    subst h3
    simp [payInvoice, h1, h2, h4]

theorem confirmPayment_ok_iff {s : ContractState} {caller id : Nat}
    {r : ContractState × List Transfer} :
    confirmPayment s caller id = .ok r ↔
      caller = (s.invoices id).client ∧
      (s.invoices id).status = Status.Paid ∧
      (s.invoices id).amount * s.platformFeePercent / 100 ≤ (s.invoices id).amount ∧
      (s.invoices id).amount * s.platformFeePercent / 100 ≤ s.balance ∧
      (s.invoices id).amount - (s.invoices id).amount * s.platformFeePercent / 100 ≤
        s.balance - (s.invoices id).amount * s.platformFeePercent / 100 ∧
      r = ({ s with
              invoices := Function.update s.invoices id
                { s.invoices id with status := Status.Validated }
              balance := s.balance - (s.invoices id).amount * s.platformFeePercent / 100 -
                ((s.invoices id).amount - (s.invoices id).amount * s.platformFeePercent / 100) },
           [⟨s.platformWallet, (s.invoices id).amount * s.platformFeePercent / 100⟩,
            ⟨(s.invoices id).emitter,
             (s.invoices id).amount - (s.invoices id).amount * s.platformFeePercent / 100⟩]) := by
  constructor
  · intro h
    simp only [confirmPayment] at h
    split_ifs at h <;> simp_all
  · rintro ⟨h1, h2, h3, h4, h5, rfl⟩
    simp [confirmPayment, h1, h2, h3, h4, h5]

theorem autoReleasePayment_ok_iff {s : ContractState} {caller id now : Nat}
    {r : ContractState × List Transfer} :
    autoReleasePayment s caller id now = .ok r ↔
      (s.invoices id).status = Status.Paid ∧
      (s.invoices id).paymentTimeStamp + s.paymentTimeout ≤ now ∧
      (s.invoices id).amount * s.platformFeePercent / 100 ≤ (s.invoices id).amount ∧
      (s.invoices id).amount * s.platformFeePercent / 100 ≤ s.balance ∧
      (s.invoices id).amount - (s.invoices id).amount * s.platformFeePercent / 100 ≤
        s.balance - (s.invoices id).amount * s.platformFeePercent / 100 ∧
      r = ({ s with
              invoices := Function.update s.invoices id
                { s.invoices id with status := Status.Released }
              balance := s.balance - (s.invoices id).amount * s.platformFeePercent / 100 -
                ((s.invoices id).amount - (s.invoices id).amount * s.platformFeePercent / 100) },
           [⟨s.platformWallet, (s.invoices id).amount * s.platformFeePercent / 100⟩,
            ⟨(s.invoices id).emitter,
             (s.invoices id).amount - (s.invoices id).amount * s.platformFeePercent / 100⟩]) := by
  constructor
  · intro h
    simp only [autoReleasePayment] at h
    split_ifs at h <;> simp_all
  · rintro ⟨h1, h2, h3, h4, h5, rfl⟩
    simp [autoReleasePayment, h1, h2, h3, h4, h5]

theorem disputeByClient_ok_iff {s : ContractState} {caller id : Nat}
    {r : ContractState × List Transfer} :
    disputeByClient s caller id = .ok r ↔
      caller = (s.invoices id).client ∧
      (s.invoices id).status = Status.Paid ∧
      r = ({ s with
              invoices := Function.update s.invoices id
                { s.invoices id with status := Status.Disputed } }, []) := by
  constructor
  · intro h
    simp only [disputeByClient] at h
    split_ifs at h <;> simp_all
  · rintro ⟨h1, h2, rfl⟩
    simp [disputeByClient, h1, h2]

theorem disputeByEmitter_ok_iff {s : ContractState} {caller id : Nat}
    {r : ContractState × List Transfer} :
    disputeByEmitter s caller id = .ok r ↔
      caller = (s.invoices id).emitter ∧
      (s.invoices id).status = Status.Paid ∧
      r = ({ s with
              invoices := Function.update s.invoices id
                { s.invoices id with status := Status.Disputed } }, []) := by
  constructor
  · intro h
    simp only [disputeByEmitter] at h
    split_ifs at h <;> simp_all
  · rintro ⟨h1, h2, rfl⟩
    simp [disputeByEmitter, h1, h2]

theorem resolveDispute_true_ok_iff {s : ContractState} {caller id : Nat}
    {r : ContractState × List Transfer} :
    resolveDispute s caller id true = .ok r ↔
      caller = s.arbitrator ∧
      (s.invoices id).status = Status.Disputed ∧
      (s.invoices id).amount ≤ s.balance ∧
      r = ({ s with
              invoices := Function.update s.invoices id
                { s.invoices id with status := Status.Released }
              balance := s.balance - (s.invoices id).amount },
           [⟨(s.invoices id).emitter, (s.invoices id).amount⟩]) := by
  constructor
  · intro h
    simp only [resolveDispute] at h
    split_ifs at h <;> simp_all
  · rintro ⟨h1, h2, h3, rfl⟩
    simp [resolveDispute, h1, h2, h3]

theorem resolveDispute_false_ok_iff {s : ContractState} {caller id : Nat}
    {r : ContractState × List Transfer} :
    resolveDispute s caller id false = .ok r ↔
      caller = s.arbitrator ∧
      (s.invoices id).status = Status.Disputed ∧
      (s.invoices id).amount ≤ s.balance ∧
      r = ({ s with
              invoices := Function.update s.invoices id
                { s.invoices id with status := Status.Pending }
              balance := s.balance - (s.invoices id).amount },
           [⟨(s.invoices id).client, (s.invoices id).amount⟩]) := by
  constructor
  · intro h
    simp only [resolveDispute] at h
    split_ifs at h <;> simp_all
  · rintro ⟨h1, h2, h3, rfl⟩
    simp [resolveDispute, h1, h2, h3]

theorem setPlatformFeePercent_ok_iff {s : ContractState} {caller f : Nat}
    {r : ContractState × List Transfer} :
    setPlatformFeePercent s caller f = .ok r ↔
      caller = s.owner ∧ f ≤ 10 ∧
      r = ({ s with platformFeePercent := f }, []) := by
  constructor
  · intro h
    simp only [setPlatformFeePercent] at h
    split_ifs at h <;> simp_all
  · rintro ⟨h1, h2, rfl⟩
    simp [setPlatformFeePercent, h1, h2]

theorem setPaymentTimeout_ok_iff {s : ContractState} {caller t : Nat}
    {r : ContractState × List Transfer} :
    setPaymentTimeout s caller t = .ok r ↔
      caller = s.owner ∧ 86400 ≤ t ∧
      r = ({ s with paymentTimeout := t }, []) := by
  constructor
  · intro h
    simp only [setPaymentTimeout] at h
    split_ifs at h <;> simp_all
  · rintro ⟨h1, h2, rfl⟩
    simp [setPaymentTimeout, h1, h2]

theorem setArbitrator_ok_iff {s : ContractState} {caller a : Nat}
    {r : ContractState × List Transfer} :
    setArbitrator s caller a = .ok r ↔
      caller = s.owner ∧ r = ({ s with arbitrator := a }, []) := by
  constructor
  · intro h
    simp only [setArbitrator] at h
    split_ifs at h <;> simp_all
  · rintro ⟨h1, rfl⟩
    simp [setArbitrator, h1]

theorem createInvoice_eq {s : ContractState} {caller c a : Nat} :
    createInvoice s caller c a =
      .ok ({ s with
              invoiceCount := s.invoiceCount + 1
              invoices := Function.update s.invoices (s.invoiceCount + 1)
                { invoiceId := s.invoiceCount + 1, client := c, emitter := caller,
                  amount := a, paymentTimeStamp := 0, status := Status.Pending } },
           []) := rfl

/-- `true` iff the call committed (did not revert). -/
def isOk : Except Err (ContractState × List Transfer) → Bool
  | .ok _ => true
  | .error _ => false

/-! ## Concrete states for witnesses and counterexamples -/

/-- A deployed contract (owner 50, arbitrator 30, platform wallet 40, fee
percent 2, timeout 7 days) holding one invoice of amount 100 from emitter 20
to client 10, currently `Paid` (paid at time 5), with the 100 in escrow. -/
def samplePaid : ContractState :=
  { invoices := Function.update (fun _ => Invoice.zero) 1
      { invoiceId := 1, client := 10, emitter := 20, amount := 100,
        paymentTimeStamp := 5, status := Status.Paid }
    invoiceCount := 1
    arbitrator := 30
    platformWallet := 40
    platformFeePercent := 2
    paymentTimeout := 604800
    owner := 50
    balance := 100 }

/-- Like `samplePaid`, but the invoice is still `Pending`: not yet paid, no
escrowed funds. -/
def samplePending : ContractState :=
  { invoices := Function.update (fun _ => Invoice.zero) 1
      { invoiceId := 1, client := 10, emitter := 20, amount := 100,
        paymentTimeStamp := 0, status := Status.Pending }
    invoiceCount := 1
    arbitrator := 30
    platformWallet := 40
    platformFeePercent := 2
    paymentTimeout := 604800
    owner := 50
    balance := 0 }

/-- The result of `confirmPayment` on `samplePaid`: invoice `Validated`,
escrow emptied. -/
def sampleValidated : ContractState :=
  { samplePaid with
      invoices := Function.update samplePaid.invoices 1
        { samplePaid.invoices 1 with status := Status.Validated }
      balance := 0 }

/-- The result of `autoReleasePayment` on `samplePaid`: invoice `Released`,
escrow emptied. -/
def sampleAutoReleased : ContractState :=
  { samplePaid with
      invoices := Function.update samplePaid.invoices 1
        { samplePaid.invoices 1 with status := Status.Released }
      balance := 0 }

/-- The result of `disputeByClient` on `samplePaid`: invoice `Disputed`, the
100 still in escrow. -/
def sampleDisputed : ContractState :=
  { samplePaid with
      invoices := Function.update samplePaid.invoices 1
        { samplePaid.invoices 1 with status := Status.Disputed } }

/-- The result of `resolveDispute(false)` on `sampleDisputed`: invoice back
to `Pending`, escrow refunded to the client. -/
def sampleReopened : ContractState :=
  { sampleDisputed with
      invoices := Function.update sampleDisputed.invoices 1
        { sampleDisputed.invoices 1 with status := Status.Pending }
      balance := 0 }

/-! ## Claims -/

/-- C2: for every invoice settled via `confirmPayment` or via
`autoReleasePayment`, the fee transferred to the platform wallet equals
`⌊amount * platformFeePercent / 100⌋`, the amount transferred to the emitter
equals `amount - fee`, and `fee + amountToEmitter = amount` — exact integer
arithmetic, no remainder lost or double-paid. -/
theorem settlement_fee_split (s : ContractState) (caller id now : Nat)
    (s' : ContractState) (ts : List Transfer)
    (h : confirmPayment s caller id = .ok (s', ts) ∨
         autoReleasePayment s caller id now = .ok (s', ts)) :
    ts = [⟨s.platformWallet, (s.invoices id).amount * s.platformFeePercent / 100⟩,
          ⟨(s.invoices id).emitter,
           (s.invoices id).amount - (s.invoices id).amount * s.platformFeePercent / 100⟩] ∧
    (s.invoices id).amount * s.platformFeePercent / 100 +
        ((s.invoices id).amount - (s.invoices id).amount * s.platformFeePercent / 100) =
      (s.invoices id).amount := by
  rcases h with h | h
  · obtain ⟨-, -, hle, -, -, hr⟩ := confirmPayment_ok_iff.mp h
    rw [Prod.mk.injEq] at hr
    exact ⟨hr.2, Nat.add_sub_cancel' hle⟩
  · obtain ⟨-, -, hle, -, -, hr⟩ := autoReleasePayment_ok_iff.mp h
    rw [Prod.mk.injEq] at hr
    exact ⟨hr.2, Nat.add_sub_cancel' hle⟩

/-- Witness for C2 on `samplePaid`: amount 100 at fee percent 2 splits into
fee 2 to wallet 40 and 98 to emitter 20, and 2 + 98 = 100. -/
theorem settlement_fee_split_witness :
    ([⟨40, 2⟩, ⟨20, 98⟩] : List Transfer) = [⟨40, 2⟩, ⟨20, 98⟩] ∧ 2 + 98 = 100 :=
  settlement_fee_split samplePaid 10 1 0 sampleValidated [⟨40, 2⟩, ⟨20, 98⟩]
    (Or.inl rfl)

/-- C6: `payInvoice`, `confirmPayment` and `disputeByClient` fail with
`AuthorizationError` (and, the call reverting, no state change) for any
caller other than the invoice's designated client; `disputeByEmitter` fails
likewise for any caller other than its designated emitter; `resolveDispute`
fails likewise for any caller other than the configured arbitrator. -/
theorem role_authorization (s : ContractState) (caller id v b now : Nat) (rel : Bool) :
    (caller ≠ (s.invoices id).client →
      payInvoice s caller id v b now = .error .AuthorizationError ∧
      confirmPayment s caller id = .error .AuthorizationError ∧
      disputeByClient s caller id = .error .AuthorizationError) ∧
    (caller ≠ (s.invoices id).emitter →
      disputeByEmitter s caller id = .error .AuthorizationError) ∧
    (caller ≠ s.arbitrator →
      resolveDispute s caller id rel = .error .AuthorizationError) := by
  refine ⟨fun h => ⟨?_, ?_, ?_⟩, fun h => ?_, fun h => ?_⟩ <;>
    simp [payInvoice, confirmPayment, disputeByClient, disputeByEmitter,
      resolveDispute, h]

/-- Witness for C6: the stranger 99 is rejected by every role-gated call on
`samplePaid`. -/
theorem role_authorization_witness :
    payInvoice samplePaid 99 1 100 100 0 = .error .AuthorizationError ∧
    disputeByEmitter samplePaid 99 1 = .error .AuthorizationError ∧
    resolveDispute samplePaid 99 1 true = .error .AuthorizationError := by
  have h := role_authorization samplePaid 99 1 100 100 0 true
  exact ⟨(h.1 (by decide)).1, h.2.1 (by decide), h.2.2 (by decide)⟩

/-- The state after `createInvoice(client 5, amount 0)` from caller 4 on a
fresh deployment. -/
def zeroAmountCreated : ContractState :=
  { initialState 1 2 3 with
      invoiceCount := 1
      invoices := Function.update (initialState 1 2 3).invoices 1
        { invoiceId := 1, client := 5, emitter := 4, amount := 0,
          paymentTimeStamp := 0, status := Status.Pending } }

/-- C7 counterexample: `createInvoice` has no `require` on the amount, so a
creation request with amount 0 is accepted and a zero-amount invoice is
stored — the claim that it is rejected fails on the code. -/
theorem createInvoice_zero_amount_accepted :
    createInvoice (initialState 1 2 3) 4 5 0 = .ok (zeroAmountCreated, []) ∧
    zeroAmountCreated.invoiceCount = 1 ∧
    (zeroAmountCreated.invoices 1).amount = 0 ∧
    (zeroAmountCreated.invoices 1).status = Status.Pending :=
  ⟨rfl, rfl, rfl, rfl⟩

/-- C7 amended: `createInvoice` performs no validation at all — every
request succeeds, zero amounts included, and the stored invoice carries
exactly the requested amount. -/
theorem createInvoice_accepts_any_amount (s : ContractState) (caller c a : Nat) :
    ∃ s', createInvoice s caller c a = .ok (s', []) ∧
      s'.invoiceCount = s.invoiceCount + 1 ∧
      s'.invoices (s.invoiceCount + 1) =
        { invoiceId := s.invoiceCount + 1, client := c, emitter := caller,
          amount := a, paymentTimeStamp := 0, status := Status.Pending } := by
  refine ⟨_, rfl, rfl, ?_⟩
  simp

/-- C8: `setPlatformFeePercent(pct)` succeeds exactly for the owner with
`pct ≤ 10` (`0 ≤ pct` holds by the unsigned type), `setPaymentTimeout(dur)`
exactly for the owner with `dur ≥ 86400` (one day); a non-owner caller gets
`AuthorizationError`, an out-of-range value `ValidationError`, and a
reverted call leaves the configuration unchanged. -/
theorem admin_config_spec (s : ContractState) (caller pct dur : Nat) :
    (caller = s.owner → pct ≤ 10 →
      setPlatformFeePercent s caller pct = .ok ({ s with platformFeePercent := pct }, [])) ∧
    (caller ≠ s.owner → setPlatformFeePercent s caller pct = .error .AuthorizationError) ∧
    (caller = s.owner → 10 < pct →
      setPlatformFeePercent s caller pct = .error .ValidationError) ∧
    (caller = s.owner → 86400 ≤ dur →
      setPaymentTimeout s caller dur = .ok ({ s with paymentTimeout := dur }, [])) ∧
    (caller ≠ s.owner → setPaymentTimeout s caller dur = .error .AuthorizationError) ∧
    (caller = s.owner → dur < 86400 →
      setPaymentTimeout s caller dur = .error .ValidationError) := by
  refine ⟨fun h1 h2 => ?_, fun h => ?_, fun h1 h2 => ?_,
          fun h1 h2 => ?_, fun h => ?_, fun h1 h2 => ?_⟩ <;>
    simp_all [setPlatformFeePercent, setPaymentTimeout] <;> omega

/-- Witness for C8 on `samplePaid` (owner 50): fee 7 and timeout 90000 are
accepted from the owner; fee 11 is rejected; the stranger 99 is rejected. -/
theorem admin_config_spec_witness :
    setPlatformFeePercent samplePaid 50 7 =
      .ok ({ samplePaid with platformFeePercent := 7 }, []) ∧
    setPlatformFeePercent samplePaid 50 11 = .error .ValidationError ∧
    setPlatformFeePercent samplePaid 99 7 = .error .AuthorizationError ∧
    setPaymentTimeout samplePaid 50 90000 =
      .ok ({ samplePaid with paymentTimeout := 90000 }, []) := by
  refine ⟨(admin_config_spec samplePaid 50 7 90000).1 rfl (by decide),
          (admin_config_spec samplePaid 50 11 90000).2.2.1 rfl (by decide),
          (admin_config_spec samplePaid 99 7 90000).2.1 (by decide),
          (admin_config_spec samplePaid 50 7 90000).2.2.2.1 rfl (by decide)⟩

/-- C3 counterexample: on `samplePending`, the designated client 10 calls
`payInvoice` with exactly the invoice amount 100, yet the call fails,
because of the fourth `require` of the source
(`msg.value <= address(msg.sender).balance`): here the client's remaining
balance is 0 < 100.  So "succeeds iff client ∧ Pending ∧ exact amount" is
false on the code. -/
theorem payInvoice_fourth_precondition :
    (samplePending.invoices 1).client = 10 ∧
    (samplePending.invoices 1).status = Status.Pending ∧
    (samplePending.invoices 1).amount = 100 ∧
    payInvoice samplePending 10 1 100 0 7 = .error .InsufficientBalanceError :=
  ⟨rfl, rfl, rfl, rfl⟩

/-- C3 amended: `payInvoice` succeeds iff the caller is the designated
client, the status is `Pending`, the paid amount equals the invoice amount
exactly, and additionally the client's remaining balance (EVM: after
`msg.value` is deducted) is at least the paid amount; on success it sets
`paymentTimeStamp := now`, sets status `Paid`, moves the funds into escrow
custody (the contract balance grows by the amount), makes no outgoing
transfer, and touches no other invoice; any success has exactly that
result, and any failure (reverting) moves no funds. -/
theorem payInvoice_spec (s : ContractState) (caller id v b now : Nat) :
    (payInvoice s caller id v b now =
        .ok ({ s with
                invoices := Function.update s.invoices id
                  { s.invoices id with paymentTimeStamp := now, status := Status.Paid }
                balance := s.balance + v }, []) ↔
      caller = (s.invoices id).client ∧ (s.invoices id).status = Status.Pending ∧
        v = (s.invoices id).amount ∧ v ≤ b) ∧
    (∀ r, payInvoice s caller id v b now = .ok r →
      r = ({ s with
              invoices := Function.update s.invoices id
                { s.invoices id with paymentTimeStamp := now, status := Status.Paid }
              balance := s.balance + v }, [])) := by
  constructor
  · constructor
    · intro h
      obtain ⟨h1, h2, h3, h4, -⟩ := payInvoice_ok_iff.mp h
      exact ⟨h1, h2, h3, h4⟩
    · intro ⟨h1, h2, h3, h4⟩
      exact payInvoice_ok_iff.mpr ⟨h1, h2, h3, h4, rfl⟩
  · intro r h
    exact (payInvoice_ok_iff.mp h).2.2.2.2

/-- Witness for C3 (amended) on `samplePending`: client 10, exact amount
100, remaining balance 100 — the payment commits and escrows the 100. -/
theorem payInvoice_spec_witness :
    payInvoice samplePending 10 1 100 100 7 =
      .ok ({ samplePending with
              invoices := Function.update samplePending.invoices 1
                { samplePending.invoices 1 with
                    paymentTimeStamp := 7, status := Status.Paid }
              balance := samplePending.balance + 100 }, []) :=
  (payInvoice_spec samplePending 10 1 100 100 7).1.mpr
    ⟨rfl, rfl, rfl, by decide⟩

/-- C4 counterexample: on `sampleDisputed` (paid at time 5), the arbitrator
resolves in the client's favor; the invoice returns to `Pending` and the
full 100 is refunded, but `paymentTimeStamp` stays 5 — the source never
clears it, against the claim. -/
theorem resolveDispute_keeps_timestamp :
    resolveDispute sampleDisputed 30 1 false = .ok (sampleReopened, [⟨10, 100⟩]) ∧
    (sampleReopened.invoices 1).status = Status.Pending ∧
    (sampleReopened.invoices 1).paymentTimeStamp = 5 ∧
    ¬ (sampleReopened.invoices 1).paymentTimeStamp = 0 :=
  ⟨rfl, rfl, rfl, by decide⟩

/-- C4 amended: for every invoice with status `Disputed` (the arbitrator
calling, the escrow holding the amount), `resolveDispute(true)` transfers
the full amount — no platform fee deducted — to the emitter and sets status
`Released`, and `resolveDispute(false)` transfers the full amount to the
client, sets status `Pending`, and leaves `paymentTimeStamp` unchanged (the
source does not clear it). -/
theorem resolveDispute_spec (s : ContractState) (id : Nat)
    (hd : (s.invoices id).status = Status.Disputed)
    (hb : (s.invoices id).amount ≤ s.balance) :
    resolveDispute s s.arbitrator id true =
      .ok ({ s with
              invoices := Function.update s.invoices id
                { s.invoices id with status := Status.Released }
              balance := s.balance - (s.invoices id).amount },
           [⟨(s.invoices id).emitter, (s.invoices id).amount⟩]) ∧
    resolveDispute s s.arbitrator id false =
      .ok ({ s with
              invoices := Function.update s.invoices id
                { s.invoices id with status := Status.Pending }
              balance := s.balance - (s.invoices id).amount },
           [⟨(s.invoices id).client, (s.invoices id).amount⟩]) ∧
    (∀ r, resolveDispute s s.arbitrator id false = .ok r →
      (r.1.invoices id).paymentTimeStamp = (s.invoices id).paymentTimeStamp ∧
      (r.1.invoices id).status = Status.Pending) := by
  refine ⟨resolveDispute_true_ok_iff.mpr ⟨rfl, hd, hb, rfl⟩,
          resolveDispute_false_ok_iff.mpr ⟨rfl, hd, hb, rfl⟩, ?_⟩
  intro r h
  obtain ⟨-, -, -, hr⟩ := resolveDispute_false_ok_iff.mp h
  subst hr
  simp

/-- Witness for C4 (amended) on `sampleDisputed`: both resolutions evaluated
at the concrete state. -/
theorem resolveDispute_spec_witness :
    resolveDispute sampleDisputed 30 1 true =
      .ok ({ sampleDisputed with
              invoices := Function.update sampleDisputed.invoices 1
                { sampleDisputed.invoices 1 with status := Status.Released }
              balance := 0 },
           [⟨20, 100⟩]) ∧
    resolveDispute sampleDisputed 30 1 false =
      .ok ({ sampleDisputed with
              invoices := Function.update sampleDisputed.invoices 1
                { sampleDisputed.invoices 1 with status := Status.Pending }
              balance := 0 },
           [⟨10, 100⟩]) := by
  have h := resolveDispute_spec sampleDisputed 1 rfl (by decide)
  exact ⟨h.1, h.2.1⟩

/-- C5: for every invoice with status `Paid`, `autoReleasePayment` — which
never reads the caller, so anyone may invoke it — fails with
`TimeoutNotReachedError` whenever `now < paymentTimeStamp + paymentTimeout`,
and whenever `now ≥ paymentTimeStamp + paymentTimeout` succeeds with the
`confirmPayment` fee split and final status `Released`.  The success leg
assumes the standing facts that the fee percent is at most 100 and the
escrow balance covers the invoice amount; both hold in every reachable
state. -/
theorem autoRelease_timeout_spec (s : ContractState) (caller id now : Nat)
    (hPaid : (s.invoices id).status = Status.Paid)
    (hPct : s.platformFeePercent ≤ 100)
    (hBal : (s.invoices id).amount ≤ s.balance) :
    (now < (s.invoices id).paymentTimeStamp + s.paymentTimeout →
      autoReleasePayment s caller id now = .error .TimeoutNotReachedError) ∧
    ((s.invoices id).paymentTimeStamp + s.paymentTimeout ≤ now →
      autoReleasePayment s caller id now =
        .ok ({ s with
                invoices := Function.update s.invoices id
                  { s.invoices id with status := Status.Released }
                balance := s.balance - (s.invoices id).amount * s.platformFeePercent / 100 -
                  ((s.invoices id).amount - (s.invoices id).amount * s.platformFeePercent / 100) },
             [⟨s.platformWallet, (s.invoices id).amount * s.platformFeePercent / 100⟩,
              ⟨(s.invoices id).emitter,
               (s.invoices id).amount - (s.invoices id).amount * s.platformFeePercent / 100⟩])) ∧
    (∀ caller₂, autoReleasePayment s caller id now = autoReleasePayment s caller₂ id now) := by
  have hfee : (s.invoices id).amount * s.platformFeePercent / 100 ≤ (s.invoices id).amount := by
    have h1 : (s.invoices id).amount * s.platformFeePercent / 100 ≤
        (s.invoices id).amount * 100 / 100 :=
      Nat.div_le_div_right (Nat.mul_le_mul_left _ hPct)
    simpa using h1
  refine ⟨fun h => ?_, fun h => ?_, fun c => rfl⟩
  · simp [autoReleasePayment, hPaid, Nat.not_le.mpr h]
  · exact autoReleasePayment_ok_iff.mpr
      ⟨hPaid, h, hfee, le_trans hfee hBal, Nat.sub_le_sub_right hBal _, rfl⟩

/-- Witness for C5 on `samplePaid` (paid at 5, timeout 604800): at time 1000
auto-release is premature; at time 700000 it commits with fee 2 to wallet 40
and 98 to emitter 20, and any caller gets the same result. -/
theorem autoRelease_timeout_spec_witness :
    autoReleasePayment samplePaid 77 1 1000 = .error .TimeoutNotReachedError ∧
    autoReleasePayment samplePaid 77 1 700000 =
      .ok (sampleAutoReleased, [⟨40, 2⟩, ⟨20, 98⟩]) ∧
    autoReleasePayment samplePaid 77 1 700000 = autoReleasePayment samplePaid 88 1 700000 := by
  refine ⟨(autoRelease_timeout_spec samplePaid 77 1 1000 rfl (by decide) (by decide)).1
            (by decide),
          (autoRelease_timeout_spec samplePaid 77 1 700000 rfl (by decide) (by decide)).2.1
            (by decide),
          (autoRelease_timeout_spec samplePaid 77 1 700000 rfl (by decide) (by decide)).2.2 88⟩

/-- C9: two state-mutating operations on the same `Paid` invoice, of which
only one transition is valid — `confirmPayment` by the client and
`disputeByClient` — serialized in either order (the EVM/registry commits
one state-mutating operation per invoice at a time): in both orders the
first commits and the second fails with `StateConflict`, so exactly one of
the two ever commits.  The standing hypotheses (fee percent ≤ 100, escrow
covers the invoice) make the confirm leg's transfers possible; both hold in
every reachable state. -/
theorem confirm_dispute_race (s : ContractState) (id : Nat)
    (hPaid : (s.invoices id).status = Status.Paid)
    (hPct : s.platformFeePercent ≤ 100)
    (hBal : (s.invoices id).amount ≤ s.balance) :
    (∀ s' ts, confirmPayment s (s.invoices id).client id = .ok (s', ts) →
      disputeByClient s' (s.invoices id).client id = .error .StateConflict) ∧
    (∃ r, confirmPayment s (s.invoices id).client id = .ok r) ∧
    (∀ s' ts, disputeByClient s (s.invoices id).client id = .ok (s', ts) →
      confirmPayment s' (s.invoices id).client id = .error .StateConflict) ∧
    (∃ r, disputeByClient s (s.invoices id).client id = .ok r) := by
  have hfee : (s.invoices id).amount * s.platformFeePercent / 100 ≤ (s.invoices id).amount := by
    have h1 : (s.invoices id).amount * s.platformFeePercent / 100 ≤
        (s.invoices id).amount * 100 / 100 :=
      Nat.div_le_div_right (Nat.mul_le_mul_left _ hPct)
    simpa using h1
  refine ⟨?_, ⟨_, confirmPayment_ok_iff.mpr
                ⟨rfl, hPaid, hfee, le_trans hfee hBal, Nat.sub_le_sub_right hBal _, rfl⟩⟩,
          ?_, ⟨_, disputeByClient_ok_iff.mpr ⟨rfl, hPaid, rfl⟩⟩⟩
  · intro s' ts h
    obtain ⟨-, -, -, -, -, hr⟩ := confirmPayment_ok_iff.mp h
    rw [Prod.mk.injEq] at hr
    obtain ⟨rfl, -⟩ := hr
    simp [disputeByClient]
  · intro s' ts h
    obtain ⟨-, -, hr⟩ := disputeByClient_ok_iff.mp h
    rw [Prod.mk.injEq] at hr
    obtain ⟨rfl, -⟩ := hr
    simp [confirmPayment]

/-- Witness for C9 on `samplePaid`: after a committed `confirmPayment` the
dispute fails, and after a committed `disputeByClient` the confirmation
fails. -/
theorem confirm_dispute_race_witness :
    disputeByClient sampleValidated 10 1 = .error .StateConflict ∧
    confirmPayment sampleDisputed 10 1 = .error .StateConflict := by
  have h := confirm_dispute_race samplePaid 1 rfl (by decide) (by decide)
  exact ⟨h.1 sampleValidated [⟨40, 2⟩, ⟨20, 98⟩] rfl, h.2.2.1 sampleDisputed [] rfl⟩

/-- C1: for the six settlement operations, a committed call changes each
invoice's status only along the edges of the §4.2 transition table
(Pending→Paid, Paid→Validated, Paid→Released, Paid→Disputed,
Disputed→Released, Disputed→Pending) — any untouched invoice is unchanged —
and a settlement call on an invoice whose status is not the one the
operation requires fails (so a wrong-status call can never commit, not even
as a no-op); in particular `Released` and `Validated` are terminal: no
settlement call on an invoice in either status commits.  A failing call
returns only the error, modelling the EVM rollback: status,
`paymentTimeStamp` and funds are left untouched, with no partial effect and
no transfer. -/
theorem settlement_transition_table (s : ContractState) (op : Op)
    (hop : op.isSettlement = true) :
    (∀ s' ts, applyOp s op = .ok (s', ts) → ∀ i,
      s'.invoices i = s.invoices i ∨
        allowedEdge (s.invoices i).status (s'.invoices i).status = true) ∧
    ((s.invoices op.targetId).status ≠ op.requiredStatus →
      isOk (applyOp s op) = false) ∧
    ((s.invoices op.targetId).status = Status.Released ∨
        (s.invoices op.targetId).status = Status.Validated →
      isOk (applyOp s op) = false) := by
  cases op with
  | setArbitrator caller a => simp [Op.isSettlement] at hop
  | setPlatformFeePercent caller f => simp [Op.isSettlement] at hop
  | setPaymentTimeout caller t => simp [Op.isSettlement] at hop
  | createInvoice caller c a => simp [Op.isSettlement] at hop
  | payInvoice caller id v b now =>
    have hfail : (s.invoices id).status ≠ Status.Pending →
        isOk (applyOp s (Op.payInvoice caller id v b now)) = false := by
      intro hst
      simp [applyOp, payInvoice, isOk, hst] <;> split_ifs <;> rfl
    refine ⟨?_, hfail, fun ht => hfail ?_⟩
    · intro s' ts h i
      obtain ⟨h1, h2, h3, h4, hr⟩ := payInvoice_ok_iff.mp (show payInvoice s caller id v b now = _ from h)
      rw [Prod.mk.injEq] at hr
      obtain ⟨rfl, -⟩ := hr
      by_cases hi : i = id
      · subst hi
        right
        simp [Function.update_same, h2, allowedEdge]
      · left
        simp [Function.update_noteq hi]
    · simp only [Op.targetId] at ht
      rcases ht with h | h <;> simp [h]
  | confirmPayment caller id =>
    have hfail : (s.invoices id).status ≠ Status.Paid →
        isOk (applyOp s (Op.confirmPayment caller id)) = false := by
      intro hst
      simp [applyOp, confirmPayment, isOk, hst] <;> split_ifs <;> rfl
    refine ⟨?_, hfail, fun ht => hfail ?_⟩
    · intro s' ts h i
      obtain ⟨h1, h2, h3, h4, h5, hr⟩ := confirmPayment_ok_iff.mp (show confirmPayment s caller id = _ from h)
      rw [Prod.mk.injEq] at hr
      obtain ⟨rfl, -⟩ := hr
      by_cases hi : i = id
      · subst hi
        right
        simp [Function.update_same, h2, allowedEdge]
      · left
        simp [Function.update_noteq hi]
    · simp only [Op.targetId] at ht
      rcases ht with h | h <;> simp [h]
  | autoReleasePayment caller id now =>
    have hfail : (s.invoices id).status ≠ Status.Paid →
        isOk (applyOp s (Op.autoReleasePayment caller id now)) = false := by
      intro hst
      simp [applyOp, autoReleasePayment, isOk, hst] <;> split_ifs <;> rfl
    refine ⟨?_, hfail, fun ht => hfail ?_⟩
    · intro s' ts h i
      obtain ⟨h1, h2, h3, h4, h5, hr⟩ := autoReleasePayment_ok_iff.mp (show autoReleasePayment s caller id now = _ from h)
      rw [Prod.mk.injEq] at hr
      obtain ⟨rfl, -⟩ := hr
      by_cases hi : i = id
      · subst hi
        right
        simp [Function.update_same, h1, allowedEdge]
      · left
        simp [Function.update_noteq hi]
    · simp only [Op.targetId] at ht
      rcases ht with h | h <;> simp [h]
  | disputeByClient caller id =>
    have hfail : (s.invoices id).status ≠ Status.Paid →
        isOk (applyOp s (Op.disputeByClient caller id)) = false := by
      intro hst
      simp [applyOp, disputeByClient, isOk, hst] <;> split_ifs <;> rfl
    refine ⟨?_, hfail, fun ht => hfail ?_⟩
    · intro s' ts h i
      obtain ⟨h1, h2, hr⟩ := disputeByClient_ok_iff.mp (show disputeByClient s caller id = _ from h)
      rw [Prod.mk.injEq] at hr
      obtain ⟨rfl, -⟩ := hr
      by_cases hi : i = id
      · subst hi
        right
        simp [Function.update_same, h2, allowedEdge]
      · left
        simp [Function.update_noteq hi]
    · simp only [Op.targetId] at ht
      rcases ht with h | h <;> simp [h]
  | disputeByEmitter caller id =>
    have hfail : (s.invoices id).status ≠ Status.Paid →
        isOk (applyOp s (Op.disputeByEmitter caller id)) = false := by
      intro hst
      simp [applyOp, disputeByEmitter, isOk, hst] <;> split_ifs <;> rfl
    refine ⟨?_, hfail, fun ht => hfail ?_⟩
    · intro s' ts h i
      obtain ⟨h1, h2, hr⟩ := disputeByEmitter_ok_iff.mp (show disputeByEmitter s caller id = _ from h)
      rw [Prod.mk.injEq] at hr
      obtain ⟨rfl, -⟩ := hr
      by_cases hi : i = id
      · subst hi
        right
        simp [Function.update_same, h2, allowedEdge]
      · left
        simp [Function.update_noteq hi]
    · simp only [Op.targetId] at ht
      rcases ht with h | h <;> simp [h]
  | resolveDispute caller id rel =>
    have hfail : (s.invoices id).status ≠ Status.Disputed →
        isOk (applyOp s (Op.resolveDispute caller id rel)) = false := by
      intro hst
      simp [applyOp, resolveDispute, isOk, hst] <;> split_ifs <;> rfl
    refine ⟨?_, hfail, fun ht => hfail ?_⟩
    · intro s' ts h i
      cases rel with
      | true =>
        obtain ⟨h1, h2, h3, hr⟩ := resolveDispute_true_ok_iff.mp (show resolveDispute s caller id true = _ from h)
        rw [Prod.mk.injEq] at hr
        obtain ⟨rfl, -⟩ := hr
        by_cases hi : i = id
        · subst hi
          right
          simp [Function.update_same, h2, allowedEdge]
        · left
          simp [Function.update_noteq hi]
      | false =>
        obtain ⟨h1, h2, h3, hr⟩ := resolveDispute_false_ok_iff.mp (show resolveDispute s caller id false = _ from h)
        rw [Prod.mk.injEq] at hr
        obtain ⟨rfl, -⟩ := hr
        by_cases hi : i = id
        · subst hi
          right
          simp [Function.update_same, h2, allowedEdge]
        · left
          simp [Function.update_noteq hi]
    · simp only [Op.targetId] at ht
      rcases ht with h | h <;> simp [h]

/-- Witness for C1: the committed `confirmPayment` on `samplePaid` moved
invoice 1 along the Paid→Validated edge; on `samplePending` (invoice 1
`Pending`, a status that does not permit confirmation) the same call
reverts; and on `sampleAutoReleased` (invoice 1 `Released`, a terminal
status) it reverts too. -/
theorem settlement_transition_table_witness :
    (sampleValidated.invoices 1 = samplePaid.invoices 1 ∨
      allowedEdge (samplePaid.invoices 1).status (sampleValidated.invoices 1).status = true) ∧
    isOk (applyOp samplePending (Op.confirmPayment 10 1)) = false ∧
    isOk (applyOp sampleAutoReleased (Op.confirmPayment 10 1)) = false := by
  refine ⟨(settlement_transition_table samplePaid (Op.confirmPayment 10 1) rfl).1
            sampleValidated [⟨40, 2⟩, ⟨20, 98⟩] rfl 1,
          (settlement_transition_table samplePending (Op.confirmPayment 10 1) rfl).2.1
            (by decide),
          (settlement_transition_table sampleAutoReleased (Op.confirmPayment 10 1) rfl).2.2
            (Or.inl rfl)⟩

/-! ## Solvency -/

theorem contribution_le_sum (f : Nat → Invoice) (n id : Nat)
    (hid : id ∈ Finset.Icc 1 n) :
    contribution (f id) ≤ ∑ i ∈ Finset.Icc 1 n, contribution (f i) := by
  have h2 : contribution (f id) + ∑ x ∈ (Finset.Icc 1 n).erase id, contribution (f x) =
      ∑ x ∈ Finset.Icc 1 n, contribution (f x) :=
    Finset.add_sum_erase (Finset.Icc 1 n) (fun j => contribution (f j)) hid
  omega

theorem sum_contribution_update (f : Nat → Invoice) (n id : Nat) (inv : Invoice)
    (hid : id ∈ Finset.Icc 1 n) :
    ∑ i ∈ Finset.Icc 1 n, contribution (Function.update f id inv i) =
      contribution inv +
        (∑ i ∈ Finset.Icc 1 n, contribution (f i) - contribution (f id)) := by
  have h2 : contribution (f id) + ∑ x ∈ (Finset.Icc 1 n).erase id, contribution (f x) =
      ∑ x ∈ Finset.Icc 1 n, contribution (f x) :=
    Finset.add_sum_erase (Finset.Icc 1 n) (fun j => contribution (f j)) hid
  have h3 : contribution (Function.update f id inv id) +
      ∑ x ∈ (Finset.Icc 1 n).erase id, contribution (Function.update f id inv x) =
      ∑ x ∈ Finset.Icc 1 n, contribution (Function.update f id inv x) :=
    Finset.add_sum_erase (Finset.Icc 1 n) (fun j => contribution (Function.update f id inv j)) hid
  have h4 : ∑ x ∈ (Finset.Icc 1 n).erase id, contribution (Function.update f id inv x) =
      ∑ x ∈ (Finset.Icc 1 n).erase id, contribution (f x) := by
    refine Finset.sum_congr rfl fun x hx => ?_
    have hxid : x ≠ id := Finset.ne_of_mem_erase hx
    simp [Function.update_apply, hxid]
  have h5 : contribution (Function.update f id inv id) = contribution inv := by
    simp
  omega

theorem sum_contribution_update_not_mem (f : Nat → Invoice) (n id : Nat) (inv : Invoice)
    (hid : id ∉ Finset.Icc 1 n) :
    ∑ i ∈ Finset.Icc 1 n, contribution (Function.update f id inv i) =
      ∑ i ∈ Finset.Icc 1 n, contribution (f i) := by
  refine Finset.sum_congr rfl fun x hx => ?_
  have hxid : x ≠ id := fun hc => hid (hc ▸ hx)
  simp [Function.update_apply, hxid]

theorem sum_contribution_append (f : Nat → Invoice) (n : Nat) (inv : Invoice) :
    ∑ i ∈ Finset.Icc 1 (n + 1), contribution (Function.update f (n + 1) inv i) =
      (∑ i ∈ Finset.Icc 1 n, contribution (f i)) + contribution inv := by
  have h1 : ∑ i ∈ Finset.Icc 1 (n + 1), contribution (Function.update f (n + 1) inv i) =
      (∑ i ∈ Finset.Icc 1 n, contribution (Function.update f (n + 1) inv i)) +
        contribution (Function.update f (n + 1) inv (n + 1)) :=
    Finset.sum_Icc_succ_top (Nat.le_add_left 1 n) _
  have h2 : ∑ i ∈ Finset.Icc 1 n, contribution (Function.update f (n + 1) inv i) =
      ∑ i ∈ Finset.Icc 1 n, contribution (f i) := by
    refine Finset.sum_congr rfl fun x hx => ?_
    have hx1 : x ≠ n + 1 := by
      have := Finset.mem_Icc.mp hx
      omega
    simp [Function.update_apply, hx1]
  have h3 : contribution (Function.update f (n + 1) inv (n + 1)) = contribution inv := by
    simp
  omega

theorem amount_outside_update (f : Nat → Invoice) (n id : Nat) (inv : Invoice)
    (hinv : inv.amount = (f id).amount)
    (hout : ∀ i, i = 0 ∨ n < i → (f i).amount = 0) :
    ∀ i, i = 0 ∨ n < i → ((Function.update f id inv) i).amount = 0 := by
  intro i hi
  by_cases hii : i = id
  · subst hii
    rw [Function.update_same, hinv]
    exact hout i hi
  · rw [Function.update_noteq hii]
    exact hout i hi

/-- The solvency invariant, strengthened with the bookkeeping fact that ids
outside `1..invoiceCount` never hold an amount (the contract only ever
writes ids it has allocated, except that an unallocated id still satisfies
every status precondition with the zero struct — but then its amount, and
hence every flow on it, is 0). -/
def SolvencyInv (s : ContractState) : Prop :=
  s.balance = escrowSum s ∧
  ∀ i, i = 0 ∨ s.invoiceCount < i → (s.invoices i).amount = 0

theorem solvencyInv_init (d a w : Nat) : SolvencyInv (initialState d a w) := by
  constructor
  · show (0 : Nat) = ∑ i ∈ Finset.Icc 1 0, contribution ((initialState d a w).invoices i)
    rw [Finset.Icc_eq_empty (by omega), Finset.sum_empty]
  · intro i _
    rfl

theorem solvencyInv_step {s s' : ContractState} {op : Op} {ts : List Transfer}
    (h : applyOp s op = .ok (s', ts)) (hinv : SolvencyInv s) : SolvencyInv s' := by
  obtain ⟨hbal, hout⟩ := hinv
  unfold escrowSum at hbal
  cases op with
  | setArbitrator caller a =>
    obtain ⟨-, hr⟩ := setArbitrator_ok_iff.mp (show setArbitrator s caller a = _ from h)
    rw [Prod.mk.injEq] at hr
    obtain ⟨rfl, -⟩ := hr
    exact ⟨hbal, hout⟩
  | setPlatformFeePercent caller f =>
    obtain ⟨-, -, hr⟩ := setPlatformFeePercent_ok_iff.mp (show setPlatformFeePercent s caller f = _ from h)
    rw [Prod.mk.injEq] at hr
    obtain ⟨rfl, -⟩ := hr
    exact ⟨hbal, hout⟩
  | setPaymentTimeout caller t =>
    obtain ⟨-, -, hr⟩ := setPaymentTimeout_ok_iff.mp (show setPaymentTimeout s caller t = _ from h)
    rw [Prod.mk.injEq] at hr
    obtain ⟨rfl, -⟩ := hr
    exact ⟨hbal, hout⟩
  | createInvoice caller c a =>
    simp only [applyOp, createInvoice, Except.ok.injEq, Prod.mk.injEq] at h
    obtain ⟨rfl, -⟩ := h
    refine ⟨?_, ?_⟩
    · show s.balance = ∑ i ∈ Finset.Icc 1 (s.invoiceCount + 1),
          contribution (Function.update s.invoices (s.invoiceCount + 1)
            { invoiceId := s.invoiceCount + 1, client := c, emitter := caller,
              amount := a, paymentTimeStamp := 0, status := Status.Pending } i)
      rw [sum_contribution_append]
      have hnew : contribution
          { invoiceId := s.invoiceCount + 1, client := c, emitter := caller,
            amount := a, paymentTimeStamp := 0, status := Status.Pending } = 0 := by
        simp [contribution]
      omega
    · intro i hi
      have hi2 : i = 0 ∨ s.invoiceCount + 1 < i := hi
      have hi1 : i ≠ s.invoiceCount + 1 := by omega
      show (Function.update s.invoices (s.invoiceCount + 1)
          { invoiceId := s.invoiceCount + 1, client := c, emitter := caller,
            amount := a, paymentTimeStamp := 0, status := Status.Pending } i).amount = 0
      rw [Function.update_noteq hi1]
      exact hout i (by omega)
  | payInvoice caller id v b now =>
    obtain ⟨h1, h2, h3, h4, hr⟩ := payInvoice_ok_iff.mp (show payInvoice s caller id v b now = _ from h)
    rw [Prod.mk.injEq] at hr
    obtain ⟨rfl, -⟩ := hr
    refine ⟨?_, ?_⟩
    · show s.balance + v = ∑ i ∈ Finset.Icc 1 s.invoiceCount,
          contribution (Function.update s.invoices id
            { s.invoices id with paymentTimeStamp := now, status := Status.Paid } i)
      by_cases hid : id ∈ Finset.Icc 1 s.invoiceCount
      · rw [sum_contribution_update s.invoices s.invoiceCount id _ hid]
        have hold : contribution (s.invoices id) = 0 := by
          simp [contribution, h2]
        have hnew : contribution
            { s.invoices id with paymentTimeStamp := now, status := Status.Paid } =
            (s.invoices id).amount := by
          simp [contribution]
        omega
      · rw [sum_contribution_update_not_mem s.invoices s.invoiceCount id _ hid]
        have hcase : id = 0 ∨ s.invoiceCount < id := by
          simp [Finset.mem_Icc] at hid
          omega
        have ha := hout id hcase
        omega
    · exact amount_outside_update s.invoices s.invoiceCount id _ rfl hout
  | confirmPayment caller id =>
    obtain ⟨h1, h2, hfe, hf1, hf2, hr⟩ := confirmPayment_ok_iff.mp (show confirmPayment s caller id = _ from h)
    rw [Prod.mk.injEq] at hr
    obtain ⟨rfl, -⟩ := hr
    refine ⟨?_, ?_⟩
    · show s.balance - (s.invoices id).amount * s.platformFeePercent / 100 -
          ((s.invoices id).amount - (s.invoices id).amount * s.platformFeePercent / 100) =
        ∑ i ∈ Finset.Icc 1 s.invoiceCount,
          contribution (Function.update s.invoices id
            { s.invoices id with status := Status.Validated } i)
      by_cases hid : id ∈ Finset.Icc 1 s.invoiceCount
      · rw [sum_contribution_update s.invoices s.invoiceCount id _ hid]
        have hle := contribution_le_sum s.invoices s.invoiceCount id hid
        have hold : contribution (s.invoices id) = (s.invoices id).amount := by
          simp [contribution, h2]
        have hnew : contribution { s.invoices id with status := Status.Validated } = 0 := by
          simp [contribution]
        omega
      · rw [sum_contribution_update_not_mem s.invoices s.invoiceCount id _ hid]
        have hcase : id = 0 ∨ s.invoiceCount < id := by
          simp [Finset.mem_Icc] at hid
          omega
        have ha := hout id hcase
        have hfz : (s.invoices id).amount * s.platformFeePercent / 100 = 0 := by
          rw [ha]
          simp
        omega
    · exact amount_outside_update s.invoices s.invoiceCount id _ rfl hout
  | autoReleasePayment caller id now =>
    obtain ⟨h1, h2, hfe, hf1, hf2, hr⟩ := autoReleasePayment_ok_iff.mp (show autoReleasePayment s caller id now = _ from h)
    rw [Prod.mk.injEq] at hr
    obtain ⟨rfl, -⟩ := hr
    refine ⟨?_, ?_⟩
    · show s.balance - (s.invoices id).amount * s.platformFeePercent / 100 -
          ((s.invoices id).amount - (s.invoices id).amount * s.platformFeePercent / 100) =
        ∑ i ∈ Finset.Icc 1 s.invoiceCount,
          contribution (Function.update s.invoices id
            { s.invoices id with status := Status.Released } i)
      by_cases hid : id ∈ Finset.Icc 1 s.invoiceCount
      · rw [sum_contribution_update s.invoices s.invoiceCount id _ hid]
        have hle := contribution_le_sum s.invoices s.invoiceCount id hid
        have hold : contribution (s.invoices id) = (s.invoices id).amount := by
          simp [contribution, h1]
        have hnew : contribution { s.invoices id with status := Status.Released } = 0 := by
          simp [contribution]
        omega
      · rw [sum_contribution_update_not_mem s.invoices s.invoiceCount id _ hid]
        have hcase : id = 0 ∨ s.invoiceCount < id := by
          simp [Finset.mem_Icc] at hid
          omega
        have ha := hout id hcase
        have hfz : (s.invoices id).amount * s.platformFeePercent / 100 = 0 := by
          rw [ha]
          simp
        omega
    · exact amount_outside_update s.invoices s.invoiceCount id _ rfl hout
  | disputeByClient caller id =>
    obtain ⟨h1, h2, hr⟩ := disputeByClient_ok_iff.mp (show disputeByClient s caller id = _ from h)
    rw [Prod.mk.injEq] at hr
    obtain ⟨rfl, -⟩ := hr
    refine ⟨?_, ?_⟩
    · show s.balance = ∑ i ∈ Finset.Icc 1 s.invoiceCount,
          contribution (Function.update s.invoices id
            { s.invoices id with status := Status.Disputed } i)
      by_cases hid : id ∈ Finset.Icc 1 s.invoiceCount
      · rw [sum_contribution_update s.invoices s.invoiceCount id _ hid]
        have hle := contribution_le_sum s.invoices s.invoiceCount id hid
        have hold : contribution (s.invoices id) = (s.invoices id).amount := by
          simp [contribution, h2]
        have hnew : contribution { s.invoices id with status := Status.Disputed } =
            (s.invoices id).amount := by
          simp [contribution]
        omega
      · rw [sum_contribution_update_not_mem s.invoices s.invoiceCount id _ hid]
        omega
    · exact amount_outside_update s.invoices s.invoiceCount id _ rfl hout
  | disputeByEmitter caller id =>
    obtain ⟨h1, h2, hr⟩ := disputeByEmitter_ok_iff.mp (show disputeByEmitter s caller id = _ from h)
    rw [Prod.mk.injEq] at hr
    obtain ⟨rfl, -⟩ := hr
    refine ⟨?_, ?_⟩
    · show s.balance = ∑ i ∈ Finset.Icc 1 s.invoiceCount,
          contribution (Function.update s.invoices id
            { s.invoices id with status := Status.Disputed } i)
      by_cases hid : id ∈ Finset.Icc 1 s.invoiceCount
      · rw [sum_contribution_update s.invoices s.invoiceCount id _ hid]
        have hle := contribution_le_sum s.invoices s.invoiceCount id hid
        have hold : contribution (s.invoices id) = (s.invoices id).amount := by
          simp [contribution, h2]
        have hnew : contribution { s.invoices id with status := Status.Disputed } =
            (s.invoices id).amount := by
          simp [contribution]
        omega
      · rw [sum_contribution_update_not_mem s.invoices s.invoiceCount id _ hid]
        omega
    · exact amount_outside_update s.invoices s.invoiceCount id _ rfl hout
  | resolveDispute caller id rel =>
    cases rel with
    | true =>
      obtain ⟨h1, h2, h3, hr⟩ := resolveDispute_true_ok_iff.mp (show resolveDispute s caller id true = _ from h)
      rw [Prod.mk.injEq] at hr
      obtain ⟨rfl, -⟩ := hr
      refine ⟨?_, ?_⟩
      · show s.balance - (s.invoices id).amount =
          ∑ i ∈ Finset.Icc 1 s.invoiceCount,
            contribution (Function.update s.invoices id
              { s.invoices id with status := Status.Released } i)
        by_cases hid : id ∈ Finset.Icc 1 s.invoiceCount
        · rw [sum_contribution_update s.invoices s.invoiceCount id _ hid]
          have hle := contribution_le_sum s.invoices s.invoiceCount id hid
          have hold : contribution (s.invoices id) = (s.invoices id).amount := by
            simp [contribution, h2]
          have hnew : contribution { s.invoices id with status := Status.Released } = 0 := by
            simp [contribution]
          omega
        · rw [sum_contribution_update_not_mem s.invoices s.invoiceCount id _ hid]
          have hcase : id = 0 ∨ s.invoiceCount < id := by
            simp [Finset.mem_Icc] at hid
            omega
          have ha := hout id hcase
          omega
      · exact amount_outside_update s.invoices s.invoiceCount id _ rfl hout
    | false =>
      obtain ⟨h1, h2, h3, hr⟩ := resolveDispute_false_ok_iff.mp (show resolveDispute s caller id false = _ from h)
      rw [Prod.mk.injEq] at hr
      obtain ⟨rfl, -⟩ := hr
      refine ⟨?_, ?_⟩
      · show s.balance - (s.invoices id).amount =
          ∑ i ∈ Finset.Icc 1 s.invoiceCount,
            contribution (Function.update s.invoices id
              { s.invoices id with status := Status.Pending } i)
        by_cases hid : id ∈ Finset.Icc 1 s.invoiceCount
        · rw [sum_contribution_update s.invoices s.invoiceCount id _ hid]
          have hle := contribution_le_sum s.invoices s.invoiceCount id hid
          have hold : contribution (s.invoices id) = (s.invoices id).amount := by
            simp [contribution, h2]
          have hnew : contribution { s.invoices id with status := Status.Pending } = 0 := by
            simp [contribution]
          omega
        · rw [sum_contribution_update_not_mem s.invoices s.invoiceCount id _ hid]
          have hcase : id = 0 ∨ s.invoiceCount < id := by
            simp [Finset.mem_Icc] at hid
            omega
          have ha := hout id hcase
          omega
      · exact amount_outside_update s.invoices s.invoiceCount id _ rfl hout

theorem reachable_solvencyInv {d a w : Nat} {s : ContractState}
    (h : Reachable d a w s) : SolvencyInv s := by
  induction h with
  | init => exact solvencyInv_init d a w
  | step hre hok ih => exact solvencyInv_step hok ih

/-- C10: solvency — starting from a freshly deployed contract, after any
sequence of successful calls, the funds held in escrow custody (the
contract balance) equal the sum of `amount` over all invoices whose status
is `Paid` or `Disputed`: `payInvoice` adds exactly `amount`, and each of
`confirmPayment`, `autoReleasePayment` and `resolveDispute` pays out
exactly the amount of the one invoice it settles, so the engine can always
cover every outstanding escrowed invoice. -/
theorem reachable_balance_eq_escrowSum (d a w : Nat) {s : ContractState}
    (h : Reachable d a w s) : s.balance = escrowSum s :=
  (reachable_solvencyInv h).1

/-- Deployment (owner 50, arbitrator 30, wallet 40) followed by
`createInvoice(client 10, amount 100)` from emitter 20. -/
def demoCreated : ContractState :=
  { initialState 50 30 40 with
      invoiceCount := 1
      invoices := Function.update (initialState 50 30 40).invoices 1
        { invoiceId := 1, client := 10, emitter := 20, amount := 100,
          paymentTimeStamp := 0, status := Status.Pending } }

/-- `demoCreated` after client 10 pays invoice 1 (amount 100, at time 5). -/
def demoPaid : ContractState :=
  { demoCreated with
      invoices := Function.update demoCreated.invoices 1
        { demoCreated.invoices 1 with
            paymentTimeStamp := 5, status := Status.Paid }
      balance := demoCreated.balance + 100 }

/-- Witness for C10: the state reached by deploy; create; pay satisfies the
solvency equation. -/
theorem reachable_balance_eq_escrowSum_witness :
    demoPaid.balance = escrowSum demoPaid :=
  reachable_balance_eq_escrowSum 50 30 40
    (Reachable.step
      (Reachable.step Reachable.init
        (show applyOp (initialState 50 30 40) (Op.createInvoice 20 10 100) =
            Except.ok (demoCreated, []) from rfl))
      (show applyOp demoCreated (Op.payInvoice 10 1 100 100 5) =
          Except.ok (demoPaid, []) from rfl))

end InvoicePayment
